import Mathlib

/-!
Verification development for `chunk/reader.go` of the dgraph repository:
a position-tracking, transparently-decompressing byte-stream reader.

The Go code wraps a `bufio.Reader`.  We shallowly embed the buffered
reader over an in-memory byte stream (`List Nat`, each element a byte),
with an unbounded buffer: the whole remaining input is always available,
so `bufio.ErrBufferFull` never arises and the `fill` loop is the
identity.  The observable `bufio.Reader` state relevant to the wrapped
operations is the read position and the `lastRuneSize` field governing
`UnreadRune` (Go's `-1` sentinel becomes `none`).
-/

namespace Chunk

/-- Errors surfaced by the modelled operations: `io.EOF` and
`bufio.ErrInvalidUnreadRune`. -/
inductive GoError where
  | eof
  | invalidUnreadRune
deriving DecidableEq, Repr

/-- Model of Go's `bufio.Reader` over an in-memory byte stream.
`input` is the whole underlying stream, `pos` the read position,
`lastRuneSize` the byte width of the last successful `ReadRune`
(`none` encodes Go's `-1`, meaning `UnreadRune` is impossible). -/
structure BufReader where
  input : List Nat
  pos : Nat
  lastRuneSize : Option Nat
deriving DecidableEq, Repr

/-- Model of `utf8.DecodeRune` from the Go standard library: decodes the
first rune of `p`, returning the code point and the byte width; on an
empty, truncated or invalid encoding it returns `(RuneError, 1)`
(`(RuneError, 0)` on empty input), with `RuneError = 0xFFFD`. -/
def utf8DecodeRune (p : List Nat) : Nat × Nat :=
  match p with
  | [] => (0xFFFD, 0)
  | b0 :: rest =>
    if b0 < 0x80 then (b0, 1)
    else if b0 < 0xC2 then (0xFFFD, 1)
    else if b0 ≤ 0xDF then
      match rest with
      | b1 :: _ =>
        if 0x80 ≤ b1 ∧ b1 ≤ 0xBF then
          ((b0 % 0x20) * 0x40 + b1 % 0x40, 2)
        else (0xFFFD, 1)
      | [] => (0xFFFD, 1)
    else if b0 ≤ 0xEF then
      match rest with
      | b1 :: b2 :: _ =>
        let lo1 : Nat := if b0 = 0xE0 then 0xA0 else 0x80
        let hi1 : Nat := if b0 = 0xED then 0x9F else 0xBF
        if lo1 ≤ b1 ∧ b1 ≤ hi1 ∧ 0x80 ≤ b2 ∧ b2 ≤ 0xBF then
          ((b0 % 0x10) * 0x1000 + (b1 % 0x40) * 0x40 + b2 % 0x40, 3)
        else (0xFFFD, 1)
      | _ => (0xFFFD, 1)
    else if b0 ≤ 0xF4 then
      match rest with
      | b1 :: b2 :: b3 :: _ =>
        let lo1 : Nat := if b0 = 0xF0 then 0x90 else 0x80
        let hi1 : Nat := if b0 = 0xF4 then 0x8F else 0xBF
        if lo1 ≤ b1 ∧ b1 ≤ hi1 ∧ 0x80 ≤ b2 ∧ b2 ≤ 0xBF ∧ 0x80 ≤ b3 ∧ b3 ≤ 0xBF then
          ((b0 % 8) * 0x40000 + (b1 % 0x40) * 0x1000 + (b2 % 0x40) * 0x40 + b3 % 0x40, 4)
        else (0xFFFD, 1)
      | _ => (0xFFFD, 1)
    else (0xFFFD, 1)

/-- Model of `bufio.Reader.ReadSlice(delim)`: bytes up to and including the first
occurrence of `delim`; if the stream is exhausted first, the remaining
bytes together with `io.EOF`.  A non-empty result sets `lastRuneSize`
to `-1` (the Go code sets it whenever `len(line) > 0`). -/
def BufReader.readSlice (b : BufReader) (delim : Nat) :
    (List Nat × Option GoError) × BufReader :=
  let rest := b.input.drop b.pos
  match rest.findIdx? (· = delim) with
  | some i =>
    let line := rest.take (i + 1)
    ((line, none),
      { b with pos := b.pos + line.length,
               lastRuneSize := if line.isEmpty then b.lastRuneSize else none })
  | none =>
    ((rest, some .eof),
      { b with pos := b.pos + rest.length,
               lastRuneSize := if rest.isEmpty then b.lastRuneSize else none })

/-- Model of `bufio.Reader.ReadRune`: sets `lastRuneSize` to `-1`, returns
`(0, 0, io.EOF)` at end of stream; otherwise an ASCII byte directly or
`utf8.DecodeRune` on the remaining window, advancing by the returned
width and recording it in `lastRuneSize`. -/
def BufReader.readRune (b : BufReader) : (Nat × Nat × Option GoError) × BufReader :=
  match b.input.drop b.pos with
  | [] => ((0, 0, some .eof), { b with lastRuneSize := none })
  | b0 :: rest =>
    let d := if b0 < 0x80 then (b0, 1) else utf8DecodeRune (b0 :: rest)
    ((d.1, d.2, none),
      { b with pos := b.pos + d.2, lastRuneSize := some d.2 })

/-- Model of `bufio.Reader.UnreadRune`: fails with `ErrInvalidUnreadRune` when
`lastRuneSize < 0` or the position is smaller than it; otherwise moves
the position back by `lastRuneSize` and invalidates it. -/
def BufReader.unreadRune (b : BufReader) : Option GoError × BufReader :=
  match b.lastRuneSize with
  | none => (some .invalidUnreadRune, b)
  | some s =>
    if b.pos < s then (some .invalidUnreadRune, b)
    else (none, { b with pos := b.pos - s, lastRuneSize := none })

/-- Number of newline bytes in a byte sequence: the `for _, b := range
slc` loop of `Reader.ReadSlice`, and `strings.Count(str, "\n")` of
`Reader.ReadString`. -/
def countNL (l : List Nat) : Nat := l.countP (fun b => b = 10)

/-- State of `chunk.Reader`: the `bufio.Reader` plus byte offset, line count,
compression flag, file name, and the single-slot rollback snapshot
`prevOffset`/`prevLine` used by `UnreadRune`. -/
structure Reader where
  rd : BufReader
  offset : Nat
  line : Nat
  compressed : Bool
  filename : String
  prevOffset : Nat
  prevLine : Nat
deriving DecidableEq, Repr

/-- Model of `chunk.Reader.ReadSlice`: snapshots the counters, delegates to the
buffered reader, then advances `offset` by the returned length and
`line` by the newlines in the returned bytes. -/
def Reader.ReadSlice (r : Reader) (delim : Nat) :
    (List Nat × Option GoError) × Reader :=
  let p := r.rd.readSlice delim
  ((p.1),
    { r with prevOffset := r.offset, prevLine := r.line,
             rd := p.2,
             offset := r.offset + p.1.1.length,
             line := r.line + countNL p.1.1 })

/-- Model of `chunk.Reader.ReadString`: identical to `ReadSlice` except the
result is a Go string (a byte string, modelled by the same byte list)
and newlines are counted with `strings.Count`. -/
def Reader.ReadString (r : Reader) (delim : Nat) :
    (List Nat × Option GoError) × Reader :=
  let p := r.rd.readSlice delim
  ((p.1),
    { r with prevOffset := r.offset, prevLine := r.line,
             rd := p.2,
             offset := r.offset + p.1.1.length,
             line := r.line + countNL p.1.1 })

/-- Model of `chunk.Reader.ReadRune`: snapshots the counters, reads one rune,
advances `offset` by its byte width and `line` when it is a newline. -/
def Reader.ReadRune (r : Reader) : (Nat × Nat × Option GoError) × Reader :=
  let p := r.rd.readRune
  ((p.1),
    { r with prevOffset := r.offset, prevLine := r.line,
             rd := p.2,
             offset := r.offset + p.1.2.1,
             line := if p.1.1 = 10 then r.line + 1 else r.line })

/-- Model of `chunk.Reader.UnreadRune`: overwrites `offset`/`line` with the
snapshot, zeroes the snapshot, then returns whatever
`bufio.Reader.UnreadRune` returns — the counters are mutated even when
the underlying unread fails. -/
def Reader.UnreadRune (r : Reader) : Option GoError × Reader :=
  let p := r.rd.unreadRune
  (p.1,
    { r with offset := r.prevOffset, line := r.prevLine,
             prevOffset := 0, prevLine := 0,
             rd := p.2 })

/-- Accessor `Offset()`: the current byte position. -/
def Reader.Offset (r : Reader) : Nat := r.offset

/-- Accessor `LineCount()`: the number of newlines read. -/
def Reader.LineCount (r : Reader) : Nat := r.line

/-- Helper for `filepath.Ext`: walks the reversed name, accumulating the
scanned suffix; stops with the extension at the first dot, or with
nothing at a path separator or the start of the name. -/
def fileExtAux : List Char → List Char → Option (List Char)
  | _, [] => none
  | acc, c :: rest =>
    if c = '/' then none
    else if c = '.' then some (c :: acc)
    else fileExtAux (c :: acc) rest

/-- Model of Go's `filepath.Ext`: the suffix of the final path element
starting at its last dot, or the empty string. -/
def fileExt (name : String) : String :=
  match fileExtAux [] name.toList.reverse with
  | some l => String.mk l
  | none => ""

/-- Model of the gzip case of `http.DetectContentType` on the peeked
prefix: the detector reports `application/x-gzip` exactly when the
buffer starts with the bytes `1f 8b 08` (`bytes.HasPrefix` against the
3-byte exact signature). -/
def sniffGzip (buf : List Nat) : Bool := decide (buf.take 3 = [0x1f, 0x8b, 0x08])

/-- Model of the success condition of `gzip.NewReader` from the Go
standard library: the eagerly-read fixed header must be present (10
bytes) with the gzip magic `1f 8b` and compression method `8`;
otherwise construction fails (`ErrHeader` / unexpected EOF).  Optional
FLG-dependent header fields are not modelled. -/
def gzipHeaderOk (content : List Nat) : Bool :=
  decide (10 ≤ content.length) && decide (content.take 3 = [0x1f, 0x8b, 8])

/-- The stream-layer composition built by `newReader`: a raw file,
a `bufio.NewReader` wrapper, or a `gzip.NewReader` wrapper. -/
inductive GoStream where
  | raw (content : List Nat)
  | buffered (s : GoStream)
  | gzipLayer (s : GoStream)
deriving DecidableEq, Repr

/-- Number of decompression layers in a stream composition. -/
def GoStream.gzipCount : GoStream → Nat
  | .raw _ => 0
  | .buffered s => s.gzipCount
  | .gzipLayer s => s.gzipCount + 1

/-- The byte sequence a stream composition serves, given the gzip
decompression function (buffering is semantically transparent, and the
`Peek(512)` used for sniffing consumes nothing). -/
def GoStream.denote (decompress : List Nat → List Nat) : GoStream → List Nat
  | .raw c => c
  | .buffered s => s.denote decompress
  | .gzipLayer s => decompress (s.denote decompress)

/-- The stream wiring of `newReader` on a file with name `filename` and
raw bytes `content`: a `.gz` extension feeds the raw file straight to
`gzip.NewReader` and rebuffers its output; otherwise the raw file is
buffered, its first up-to-512 bytes are sniffed, and on a gzip match
the buffered reader is fed to `gzip.NewReader` and rebuffered; plain
content keeps the buffered raw file.  `none` models the fatal
`x.CheckfNoTrace` abort when `gzip.NewReader` fails; the `Bool` is the
`compressed` flag. -/
def newReaderLayers (filename : String) (content : List Nat) :
    Option (GoStream × Bool) :=
  if fileExt filename = ".gz" then
    if gzipHeaderOk content then
      some (.buffered (.gzipLayer (.raw content)), true)
    else none
  else
    if sniffGzip (content.take 512) then
      if gzipHeaderOk content then
        some (.buffered (.gzipLayer (.buffered (.raw content))), true)
      else none
    else
      some (.buffered (.raw content), false)

/-- Model of `newReader` as a whole: the `chunk.Reader` it returns, with counters
and the rollback snapshot zeroed and the final buffered stream at
position 0.  Parametrised by the gzip decompression function, which is
outside this repository. -/
def newReader (decompress : List Nat → List Nat) (filename : String)
    (content : List Nat) : Option Reader :=
  (newReaderLayers filename content).map fun p =>
    { rd := { input := p.1.denote decompress, pos := 0, lastRuneSize := none },
      offset := 0, line := 0, compressed := p.2, filename := filename,
      prevOffset := 0, prevLine := 0 }

/-- One call of a read primitive, for stating trace equivalence. -/
inductive Op where
  | readSlice (delim : Nat)
  | readString (delim : Nat)
  | readRune
  | unreadRune
deriving DecidableEq, Repr

/-- The caller-visible result of one call. -/
inductive Out where
  | bytes (l : List Nat) (e : Option GoError)
  | str (l : List Nat) (e : Option GoError)
  | rune (c : Nat) (size : Nat) (e : Option GoError)
  | unread (e : Option GoError)
deriving DecidableEq, Repr

/-- Dispatch one call on the reader. -/
def runOp (r : Reader) : Op → Out × Reader
  | .readSlice d =>
    let p := r.ReadSlice d
    (.bytes p.1.1 p.1.2, p.2)
  | .readString d =>
    let p := r.ReadString d
    (.str p.1.1 p.1.2, p.2)
  | .readRune =>
    let p := r.ReadRune
    (.rune p.1.1 p.1.2.1 p.1.2.2, p.2)
  | .unreadRune =>
    let p := r.UnreadRune
    (.unread p.1, p.2)

/-- Run a sequence of calls, collecting the results. -/
def runOps (r : Reader) : List Op → List Out × Reader
  | [] => ([], r)
  | op :: ops =>
    let p := runOp r op
    let q := runOps p.2 ops
    (p.1 :: q.1, q.2)

/-- Runs `n` successive `ReadRune` calls, collecting the results. -/
def readRunes : Nat → Reader → List (Nat × Nat × Option GoError) × Reader
  | 0, r => ([], r)
  | n + 1, r =>
    let p := r.ReadRune
    let q := readRunes n p.2
    (p.1 :: q.1, q.2)

/-- A sample reader over the bytes `"a\nb"`, used to instantiate
hypothesis-bearing theorems at concrete inputs. -/
def sampleReader : Reader :=
  ⟨⟨[97, 10, 98], 0, none⟩, 0, 0, false, "sample", 0, 0⟩

/-- A sample reader mid-stream over `"a\nb"`: two bytes consumed,
one newline seen, with a live one-rune rollback snapshot. -/
def advancedReader : Reader :=
  ⟨⟨[97, 10, 98], 2, some 1⟩, 2, 1, false, "sample", 1, 0⟩

/-- A sample reader mid-stream with no delimiter remaining: two bytes of
`"a\ncc"` consumed, tail `"cc"`. -/
def tailReader : Reader :=
  ⟨⟨[97, 10, 99, 99], 2, none⟩, 2, 1, false, "sample", 0, 0⟩

/-- A plain sample file reader produced by `newReader` on `"a\nb"`. -/
def plainReader : Reader :=
  ⟨⟨[97, 10, 98], 0, none⟩, 0, 0, false, "a.txt", 0, 0⟩

/-- A successful `ReadRune` came from a non-empty remaining stream, and
the result state advances the position and offset by the decoded width,
records the width in `lastRuneSize`, and snapshots the counters. -/
theorem readRune_eq_cases (r : Reader) (c s : Nat) (r1 : Reader)
    (h : r.ReadRune = ((c, s, none), r1)) :
    ∃ b0 rest, r.rd.input.drop r.rd.pos = b0 :: rest ∧
      (if b0 < 0x80 then (b0, 1) else utf8DecodeRune (b0 :: rest)) = (c, s) ∧
      r1 = { r with rd := { r.rd with pos := r.rd.pos + s, lastRuneSize := some s },
                    offset := r.offset + s,
                    line := if c = 10 then r.line + 1 else r.line,
                    prevOffset := r.offset, prevLine := r.line } := by
  unfold Reader.ReadRune BufReader.readRune at h
  simp only at h
  split at h
  · simp at h
  · rename_i b0 rest heq
    simp only [Prod.mk.injEq] at h
    obtain ⟨⟨hc, hs, -⟩, hr⟩ := h
    subst hc; subst hs
    exact ⟨b0, rest, heq, rfl, hr.symm⟩

/-- C4: whenever a `ReadRune` call succeeds, `ReadRune; UnreadRune;
ReadRune` returns the same character and byte width from both read
calls, and immediately after the `UnreadRune` call `Offset()` and
`LineCount()` equal their values before the first `ReadRune`. -/
theorem readRune_unreadRune_roundTrip (r : Reader) (c s : Nat) (r1 : Reader)
    (h : r.ReadRune = ((c, s, none), r1)) :
    (r1.UnreadRune).1 = none ∧
    (r1.UnreadRune).2.Offset = r.Offset ∧
    (r1.UnreadRune).2.LineCount = r.LineCount ∧
    ((r1.UnreadRune).2.ReadRune).1 = (c, s, none) := by
  obtain ⟨b0, rest, heq, hd, hr1⟩ := readRune_eq_cases r c s r1 h
  subst hr1
  have hlt : ¬ (r.rd.pos + s < s) := by omega
  simp only [Reader.UnreadRune, BufReader.unreadRune, Reader.Offset,
    Reader.LineCount, Reader.ReadRune, BufReader.readRune]
  rw [if_neg hlt]
  simp only [Nat.add_sub_cancel]
  simp [heq, hd]

/-- Witness for C4 at the sample reader. -/
theorem readRune_unreadRune_roundTrip_witness :
    sampleReader.ReadRune = ((97, 1, none), (sampleReader.ReadRune).2) ∧
    (((sampleReader.ReadRune).2.UnreadRune).1 = none ∧
     ((sampleReader.ReadRune).2.UnreadRune).2.Offset = sampleReader.Offset ∧
     ((sampleReader.ReadRune).2.UnreadRune).2.LineCount = sampleReader.LineCount ∧
     (((sampleReader.ReadRune).2.UnreadRune).2.ReadRune).1 = (97, 1, none)) :=
  ⟨by decide,
   readRune_unreadRune_roundTrip sampleReader 97 1 (sampleReader.ReadRune).2 (by decide)⟩

/-- C5: after a successful `ReadRune`, `UnreadRune` restores the
counters to the pre-read snapshot, zeroes the snapshot slots, and a
second consecutive `UnreadRune` fails; in general the error of
`UnreadRune` is exactly the underlying stream's push-back error. -/
theorem unreadRune_contract (r : Reader) (c s : Nat) (r1 : Reader)
    (h : r.ReadRune = ((c, s, none), r1)) :
    ((r1.UnreadRune).2.Offset = r.Offset ∧
     (r1.UnreadRune).2.LineCount = r.LineCount ∧
     (r1.UnreadRune).2.prevOffset = 0 ∧
     (r1.UnreadRune).2.prevLine = 0 ∧
     ((r1.UnreadRune).2.UnreadRune).1 = some GoError.invalidUnreadRune) ∧
    (∀ r' : Reader, (r'.UnreadRune).1 = (r'.rd.unreadRune).1) := by
  obtain ⟨b0, rest, heq, hd, hr1⟩ := readRune_eq_cases r c s r1 h
  subst hr1
  have hlt : ¬ (r.rd.pos + s < s) := by omega
  refine ⟨?_, fun r' => rfl⟩
  simp only [Reader.UnreadRune, BufReader.unreadRune, Reader.Offset, Reader.LineCount]
  rw [if_neg hlt]
  simp

/-- Witness for C5 at the sample reader. -/
theorem unreadRune_contract_witness :
    sampleReader.ReadRune = ((97, 1, none), (sampleReader.ReadRune).2) ∧
    (((sampleReader.ReadRune).2.UnreadRune).2.Offset = sampleReader.Offset ∧
     ((sampleReader.ReadRune).2.UnreadRune).2.LineCount = sampleReader.LineCount ∧
     ((sampleReader.ReadRune).2.UnreadRune).2.prevOffset = 0 ∧
     ((sampleReader.ReadRune).2.UnreadRune).2.prevLine = 0 ∧
     (((sampleReader.ReadRune).2.UnreadRune).2.UnreadRune).1 =
       some GoError.invalidUnreadRune) :=
  ⟨by decide,
   (unreadRune_contract sampleReader 97 1 (sampleReader.ReadRune).2 (by decide)).1⟩

/-- C6: a failing `UnreadRune` still overwrites `Offset()`/`LineCount()`
with the stored snapshot before the push-back is attempted; a second
consecutive `UnreadRune` therefore resets both counters to 0 (the
zeroed snapshot) while returning an error, however far the reader had
advanced. -/
theorem unreadRune_mutates_on_failure (r : Reader) :
    ((r.UnreadRune).2.Offset = r.prevOffset ∧
     (r.UnreadRune).2.LineCount = r.prevLine) ∧
    (∀ (c s : Nat) (r1 : Reader), r.ReadRune = ((c, s, none), r1) →
       ((r1.UnreadRune).2.UnreadRune).1 = some GoError.invalidUnreadRune ∧
       ((r1.UnreadRune).2.UnreadRune).2.Offset = 0 ∧
       ((r1.UnreadRune).2.UnreadRune).2.LineCount = 0) := by
  refine ⟨⟨rfl, rfl⟩, fun c s r1 h => ?_⟩
  obtain ⟨b0, rest, heq, hd, hr1⟩ := readRune_eq_cases r c s r1 h
  subst hr1
  have hlt : ¬ (r.rd.pos + s < s) := by omega
  simp only [Reader.UnreadRune, BufReader.unreadRune, Reader.Offset, Reader.LineCount]
  rw [if_neg hlt]
  simp

/-- Lemma: `ReadSlice` invalidates the underlying one-rune push-back whenever
it returns bytes, and always snapshots the pre-call counters. -/
theorem readSlice_result_state (r : Reader) (delim : Nat) :
    (r.ReadSlice delim).2.rd.lastRuneSize =
      (if ((r.ReadSlice delim).1.1).isEmpty then r.rd.lastRuneSize else none) ∧
    (r.ReadSlice delim).2.prevOffset = r.offset ∧
    (r.ReadSlice delim).2.prevLine = r.line := by
  cases h : (r.rd.input.drop r.rd.pos).findIdx? (· = delim) with
  | none => simp [Reader.ReadSlice, BufReader.readSlice, h]
  | some i => simp [Reader.ReadSlice, BufReader.readSlice, h]

/-- Lemma: `ReadString` is the same reading operation as `ReadSlice` (the Go
version converts the bytes to a string and counts newlines with
`strings.Count`, which agrees with the byte scan). -/
theorem readString_eq_readSlice (r : Reader) (delim : Nat) :
    r.ReadString delim = r.ReadSlice delim := rfl

/-- C8: when the remaining stream is non-empty and contains no
delimiter, `ReadSlice` (and `ReadString`) returns the remaining bytes
with the end-of-stream error, exactly once: the stream is then
exhausted, and on any exhausted reader every further call returns an
empty result with the same end-of-stream error, leaving `Offset()` and
`LineCount()` unchanged. -/
theorem readSlice_partialFinal (r : Reader) (delim : Nat)
    (hne : r.rd.input.drop r.rd.pos ≠ [])
    (hnd : delim ∉ r.rd.input.drop r.rd.pos) :
    ((r.ReadSlice delim).1 = (r.rd.input.drop r.rd.pos, some GoError.eof) ∧
     (r.ReadSlice delim).1.1 ≠ [] ∧
     (r.ReadString delim).1 = (r.rd.input.drop r.rd.pos, some GoError.eof)) ∧
    (r.ReadSlice delim).2.rd.input.drop (r.ReadSlice delim).2.rd.pos = [] ∧
    (∀ r' : Reader, r'.rd.input.drop r'.rd.pos = [] →
      (r'.ReadSlice delim).1 = ([], some GoError.eof) ∧
      (r'.ReadSlice delim).2.Offset = r'.Offset ∧
      (r'.ReadSlice delim).2.LineCount = r'.LineCount ∧
      (r'.ReadString delim).1 = ([], some GoError.eof) ∧
      (r'.ReadString delim).2.Offset = r'.Offset ∧
      (r'.ReadString delim).2.LineCount = r'.LineCount) := by
  have hfind : (r.rd.input.drop r.rd.pos).findIdx? (· = delim) = none := by
    rw [List.findIdx?_eq_none_iff]
    intro x hx
    simp only [decide_eq_false_iff_not]
    exact fun he => hnd (he ▸ hx)
  refine ⟨?_, ?_, ?_⟩
  · simp [Reader.ReadSlice, Reader.ReadString, BufReader.readSlice, hfind, hne]
  · have hrd : (r.ReadSlice delim).2.rd =
        { r.rd with pos := r.rd.pos + (r.rd.input.drop r.rd.pos).length,
                    lastRuneSize :=
                      if (r.rd.input.drop r.rd.pos).isEmpty
                      then r.rd.lastRuneSize else none } := by
      simp [Reader.ReadSlice, BufReader.readSlice, hfind]
    rw [hrd]
    simp only
    rw [← List.drop_drop, List.drop_length]
  · intro r' h
    have hfind' : (r'.rd.input.drop r'.rd.pos).findIdx? (· = delim) = none := by
      rw [h]; rfl
    simp [Reader.ReadSlice, Reader.ReadString, BufReader.readSlice, hfind', h,
      Reader.Offset, Reader.LineCount, countNL]

/-- Witness for C8 at the tail sample reader. -/
theorem readSlice_partialFinal_witness :
    ((10 : Nat) ∉ tailReader.rd.input.drop tailReader.rd.pos) ∧
    ((tailReader.ReadSlice 10).1 =
       (tailReader.rd.input.drop tailReader.rd.pos, some GoError.eof) ∧
     (tailReader.ReadSlice 10).1.1 ≠ [] ∧
     (tailReader.ReadString 10).1 =
       (tailReader.rd.input.drop tailReader.rd.pos, some GoError.eof)) ∧
    (tailReader.ReadSlice 10).2.rd.input.drop (tailReader.ReadSlice 10).2.rd.pos = [] :=
  ⟨by decide,
   (readSlice_partialFinal tailReader 10 (by decide) (by decide)).1,
   (readSlice_partialFinal tailReader 10 (by decide) (by decide)).2.1⟩

/-- C10: every read primitive (`ReadSlice`, `ReadString`, `ReadRune`)
overwrites the rollback snapshot with the pre-call counters, so
`UnreadRune` directly after a `ReadSlice`/`ReadString` that returned a
non-empty chunk rolls `Offset()`/`LineCount()` back by the entire
chunk, while the underlying stream pushes nothing back (its state is
unchanged) and an error is returned. -/
theorem snapshot_overwritten_desync (r : Reader) (delim : Nat) :
    ((r.ReadSlice delim).2.prevOffset = r.Offset ∧
     (r.ReadSlice delim).2.prevLine = r.LineCount ∧
     (r.ReadString delim).2.prevOffset = r.Offset ∧
     (r.ReadString delim).2.prevLine = r.LineCount ∧
     (r.ReadRune).2.prevOffset = r.Offset ∧
     (r.ReadRune).2.prevLine = r.LineCount) ∧
    (∀ slc e r1, r.ReadSlice delim = ((slc, e), r1) → slc ≠ [] →
       (r1.UnreadRune).1 = some GoError.invalidUnreadRune ∧
       (r1.UnreadRune).2.Offset = r.Offset ∧
       (r1.UnreadRune).2.LineCount = r.LineCount ∧
       (r1.UnreadRune).2.rd = r1.rd) ∧
    (∀ st e r1, r.ReadString delim = ((st, e), r1) → st ≠ [] →
       (r1.UnreadRune).1 = some GoError.invalidUnreadRune ∧
       (r1.UnreadRune).2.Offset = r.Offset ∧
       (r1.UnreadRune).2.LineCount = r.LineCount ∧
       (r1.UnreadRune).2.rd = r1.rd) := by
  have key : ∀ slc e r1, r.ReadSlice delim = ((slc, e), r1) → slc ≠ [] →
      (r1.UnreadRune).1 = some GoError.invalidUnreadRune ∧
      (r1.UnreadRune).2.Offset = r.Offset ∧
      (r1.UnreadRune).2.LineCount = r.LineCount ∧
      (r1.UnreadRune).2.rd = r1.rd := by
    intro slc e r1 h hne
    obtain ⟨hl, hpo, hpl⟩ := readSlice_result_state r delim
    have h2 : r1 = (r.ReadSlice delim).2 := by rw [h]
    have h1 : slc = (r.ReadSlice delim).1.1 := by rw [h]
    have hemp : ((r.ReadSlice delim).1.1).isEmpty = false := by
      rw [← h1]
      cases slc with
      | nil => exact absurd rfl hne
      | cons a t => rfl
    have hln : r1.rd.lastRuneSize = none := by
      rw [h2, hl, hemp]
      rfl
    have hu : r1.rd.unreadRune = (some GoError.invalidUnreadRune, r1.rd) := by
      simp [BufReader.unreadRune, hln]
    refine ⟨?_, ?_, ?_, ?_⟩
    · simp [Reader.UnreadRune, hu]
    · simp [Reader.UnreadRune, Reader.Offset, h2, hpo]
    · simp [Reader.UnreadRune, Reader.LineCount, h2, hpl]
    · simp [Reader.UnreadRune, hu]
  exact ⟨⟨rfl, rfl, rfl, rfl, rfl, rfl⟩, key,
    fun st e r1 h => key st e r1 (by rw [← readString_eq_readSlice]; exact h)⟩

/-- Witness for C10 at the plain sample reader. -/
theorem snapshot_overwritten_desync_witness :
    plainReader.ReadSlice 10 = (([97, 10], none), (plainReader.ReadSlice 10).2) ∧
    (((plainReader.ReadSlice 10).2.UnreadRune).1 = some GoError.invalidUnreadRune ∧
     ((plainReader.ReadSlice 10).2.UnreadRune).2.Offset = plainReader.Offset ∧
     ((plainReader.ReadSlice 10).2.UnreadRune).2.LineCount = plainReader.LineCount ∧
     ((plainReader.ReadSlice 10).2.UnreadRune).2.rd = (plainReader.ReadSlice 10).2.rd) :=
  ⟨by decide,
   (snapshot_overwritten_desync plainReader 10).2.1 [97, 10] none
     (plainReader.ReadSlice 10).2 (by decide) (by decide)⟩

/-- C1: on the 3-line input `"a\nbb\nccc"` with no trailing newline,
opened through `newReader` on an uncompressed file, three successive
`ReadSlice('\n')` calls return `"a\n"` with no error, `"bb\n"` with no
error, then `"ccc"` with the end-of-stream error, after which
`LineCount()` is 2 and `Offset()` is 8. -/
theorem threeLine_scenario :
    (newReader id "input.txt" [97, 10, 98, 98, 10, 99, 99, 99]).map (fun r0 =>
      let p := runOps r0 [Op.readSlice 10, Op.readSlice 10, Op.readSlice 10]
      (p.1, p.2.LineCount, p.2.Offset)) =
    some ([Out.bytes [97, 10] none, Out.bytes [98, 98, 10] none,
           Out.bytes [99, 99, 99] (some GoError.eof)], 2, 8) := by decide

/-- The counters of a reader track `readRunes`: the offset advances by
the sum of the returned widths and the line count by the number of
returned newline characters. -/
theorem readRunes_counters (n : Nat) (r : Reader) :
    (readRunes n r).2.offset =
      r.offset + ((readRunes n r).1.map (fun o => o.2.1)).sum ∧
    (readRunes n r).2.line =
      r.line + (readRunes n r).1.countP (fun o => o.1 == 10) := by
  induction n generalizing r with
  | zero => simp [readRunes]
  | succ n ih =>
    obtain ⟨h1, h2⟩ := ih (r.ReadRune).2
    have ho : (r.ReadRune).2.offset = r.offset + (r.ReadRune).1.2.1 := rfl
    have hl : (r.ReadRune).2.line =
        if (r.ReadRune).1.1 = 10 then r.line + 1 else r.line := rfl
    simp only [readRunes, List.map_cons, List.sum_cons, List.countP_cons]
    constructor
    · rw [h1, ho]; omega
    · rw [h2, hl]
      by_cases hc : (r.ReadRune).1.1 = 10
      · simp [hc]
        omega
      · simp [hc]

/-- C2: after `n` successful `ReadRune` calls on a freshly constructed
reader with no gzip layer, `Offset()` equals the sum of the byte widths
returned by those calls, and `LineCount()` equals the number of calls
that returned the newline character. -/
theorem offset_lineCount_after_readRunes (d : List Nat → List Nat)
    (name : String) (input : List Nat) (r0 : Reader) (n : Nat)
    (hmk : newReader d name input = some r0) (hc : r0.compressed = false)
    (hsucc : ∀ o ∈ (readRunes n r0).1, o.2.2 = none) :
    (readRunes n r0).2.Offset =
      ((readRunes n r0).1.map (fun o => o.2.1)).sum ∧
    (readRunes n r0).2.LineCount =
      (readRunes n r0).1.countP (fun o => o.1 == 10) := by
  have h0 : r0.offset = 0 ∧ r0.line = 0 := by
    cases hL : newReaderLayers name input with
    | none => rw [newReader, hL] at hmk; simp at hmk
    | some p =>
      rw [newReader, hL, Option.map_some'] at hmk
      injection hmk with h
      subst h
      exact ⟨rfl, rfl⟩
  obtain ⟨h1, h2⟩ := readRunes_counters n r0
  rw [Reader.Offset, Reader.LineCount, h1, h2, h0.1, h0.2]
  simp

/-- Witness for C2 at a concrete plain reader and three reads. -/
theorem offset_lineCount_after_readRunes_witness :
    newReader id "a.txt" [97, 10, 98] = some plainReader ∧
    ((readRunes 3 plainReader).2.Offset =
       ((readRunes 3 plainReader).1.map (fun o => o.2.1)).sum ∧
     (readRunes 3 plainReader).2.LineCount =
       (readRunes 3 plainReader).1.countP (fun o => o.1 == 10)) :=
  ⟨by decide,
   offset_lineCount_after_readRunes id "a.txt" [97, 10, 98] plainReader 3
     (by decide) (by decide) (by decide)⟩

/-- Sniffing only inspects the first three peeked bytes, so peeking up
to 512 bytes does not change the outcome. -/
theorem sniffGzip_take512 (l : List Nat) : sniffGzip (l.take 512) = sniffGzip l := by
  unfold sniffGzip
  rw [List.take_take]
  norm_num

/-- A stream accepted by the gzip decoder is also detected by content
sniffing: a valid header starts with `1f 8b 08`. -/
theorem gzipHeaderOk_sniff (gz : List Nat) (h : gzipHeaderOk gz = true) :
    sniffGzip gz = true := by
  unfold gzipHeaderOk at h
  simp only [Bool.and_eq_true, decide_eq_true_eq] at h
  obtain ⟨-, htake⟩ := h
  simp [sniffGzip, htake]

/-- Observable equality of readers: equal in every field the read
primitives consult or update (all fields except `compressed` and
`filename`). -/
def obsEq (a b : Reader) : Prop :=
  a.rd = b.rd ∧ a.offset = b.offset ∧ a.line = b.line ∧
  a.prevOffset = b.prevOffset ∧ a.prevLine = b.prevLine

/-- One read call returns the same result on observably equal readers
and preserves observable equality. -/
theorem runOp_obsEq (a b : Reader) (op : Op) (h : obsEq a b) :
    (runOp a op).1 = (runOp b op).1 ∧ obsEq (runOp a op).2 (runOp b op).2 := by
  obtain ⟨h1, h2, h3, h4, h5⟩ := h
  cases op <;>
    simp [runOp, Reader.ReadSlice, Reader.ReadString, Reader.ReadRune,
      Reader.UnreadRune, obsEq, h1, h2, h3, h4, h5]

/-- Traces of read calls agree on observably equal readers. -/
theorem runOps_obsEq (ops : List Op) (a b : Reader) (h : obsEq a b) :
    (runOps a ops).1 = (runOps b ops).1 ∧
    obsEq (runOps a ops).2 (runOps b ops).2 := by
  induction ops generalizing a b with
  | nil => exact ⟨rfl, h⟩
  | cons op ops ih =>
    obtain ⟨ho, hs⟩ := runOp_obsEq a b op h
    obtain ⟨ho2, hs2⟩ := ih _ _ hs
    simp only [runOps]
    exact ⟨by rw [ho, ho2], hs2⟩

/-- C3: a reader opened on a plain file containing `C` and a reader
opened on a gzip compression of `C` (whether or not the name carries
the `.gz` extension) return identical results from any sequence of
read-primitive calls and end with identical `Offset()` and
`LineCount()`, the offset measured in decompressed bytes. -/
theorem plain_gzip_indistinguishable (d : List Nat → List Nat)
    (nameP nameG : String) (C gz : List Nat) (ops : List Op) (rp rg : Reader)
    (hextP : fileExt nameP ≠ ".gz") (hplain : sniffGzip C = false)
    (hgz : gzipHeaderOk gz = true) (hd : d gz = C)
    (hp : newReader d nameP C = some rp) (hg : newReader d nameG gz = some rg) :
    (runOps rp ops).1 = (runOps rg ops).1 ∧
    (runOps rp ops).2.Offset = (runOps rg ops).2.Offset ∧
    (runOps rp ops).2.LineCount = (runOps rg ops).2.LineCount := by
  have hLp : newReaderLayers nameP C = some (.buffered (.raw C), false) := by
    simp [newReaderLayers, hextP, sniffGzip_take512, hplain]
  rw [newReader, hLp, Option.map_some'] at hp
  injection hp with hp
  have hrg : rg.rd = ⟨C, 0, none⟩ ∧ rg.offset = 0 ∧ rg.line = 0 ∧
      rg.prevOffset = 0 ∧ rg.prevLine = 0 := by
    by_cases hE : fileExt nameG = ".gz"
    · have hLg : newReaderLayers nameG gz =
          some (.buffered (.gzipLayer (.raw gz)), true) := by
        simp [newReaderLayers, hE, hgz]
      rw [newReader, hLg, Option.map_some'] at hg
      injection hg with hg
      rw [← hg]
      simp [GoStream.denote, hd]
    · have hs : sniffGzip (gz.take 512) = true := by
        rw [sniffGzip_take512]; exact gzipHeaderOk_sniff gz hgz
      have hLg : newReaderLayers nameG gz =
          some (.buffered (.gzipLayer (.buffered (.raw gz))), true) := by
        simp [newReaderLayers, hE, hs, hgz]
      rw [newReader, hLg, Option.map_some'] at hg
      injection hg with hg
      rw [← hg]
      simp [GoStream.denote, hd]
  have hobs : obsEq rp rg := by
    rw [← hp]
    exact ⟨hrg.1.symm, hrg.2.1.symm, hrg.2.2.1.symm, hrg.2.2.2.1.symm,
      hrg.2.2.2.2.symm⟩
  obtain ⟨h1, h2⟩ := runOps_obsEq ops rp rg hobs
  exact ⟨h1, h2.2.1, h2.2.2.1⟩

/-- A concrete plain reader and gzip reader over the same content
`"a\n"`, for the C3 witness. -/
def plainReaderC : Reader :=
  ⟨⟨[97, 10], 0, none⟩, 0, 0, false, "a.txt", 0, 0⟩

/-- The gzip-side reader of the C3 witness: same decompressed stream,
compressed flag set. -/
def gzipReaderC : Reader :=
  ⟨⟨[97, 10], 0, none⟩, 0, 0, true, "a.gz", 0, 0⟩

/-- Witness for C3: a 12-byte mock gzip stream whose decompression (drop
the 10-byte header) is `"a\n"`, read alongside the plain file. -/
theorem plain_gzip_indistinguishable_witness :
    newReader (fun l => l.drop 10) "a.txt" [97, 10] = some plainReaderC ∧
    newReader (fun l => l.drop 10) "a.gz"
      [31, 139, 8, 0, 0, 0, 0, 0, 0, 0, 97, 10] = some gzipReaderC ∧
    ((runOps plainReaderC [Op.readSlice 10, Op.readRune]).1 =
       (runOps gzipReaderC [Op.readSlice 10, Op.readRune]).1 ∧
     (runOps plainReaderC [Op.readSlice 10, Op.readRune]).2.Offset =
       (runOps gzipReaderC [Op.readSlice 10, Op.readRune]).2.Offset ∧
     (runOps plainReaderC [Op.readSlice 10, Op.readRune]).2.LineCount =
       (runOps gzipReaderC [Op.readSlice 10, Op.readRune]).2.LineCount) :=
  ⟨by decide, by decide,
   plain_gzip_indistinguishable (fun l => l.drop 10) "a.txt" "a.gz" [97, 10]
     [31, 139, 8, 0, 0, 0, 0, 0, 0, 0, 97, 10] [Op.readSlice 10, Op.readRune]
     plainReaderC gzipReaderC (by decide) (by decide) (by decide) (by decide)
     (by decide) (by decide)⟩

/-- C7: a `.gz` source name attaches the decompression layer
unconditionally, feeding the raw file directly to the gzip decoder with
no content sniffing; if the content is not a valid gzip stream,
construction fails at open time instead of falling back to sniffing. -/
theorem gz_extension_unconditional (name : String) (content : List Nat)
    (hext : fileExt name = ".gz") :
    (gzipHeaderOk content = true →
       newReaderLayers name content =
         some (.buffered (.gzipLayer (.raw content)), true)) ∧
    (gzipHeaderOk content = false → newReaderLayers name content = none) := by
  constructor <;> intro h <;> simp [newReaderLayers, hext, h]

/-- Witness for C7: a well-formed mock gzip file named `data.gz` is
wired straight into the decompressor, and a plain-text file named
`data.gz` fails construction. -/
theorem gz_extension_unconditional_witness :
    fileExt "data.gz" = ".gz" ∧
    newReaderLayers "data.gz" [31, 139, 8, 0, 0, 0, 0, 0, 0, 0] =
      some (.buffered (.gzipLayer (.raw [31, 139, 8, 0, 0, 0, 0, 0, 0, 0])), true) ∧
    newReaderLayers "data.gz" [104, 105] = none :=
  ⟨by decide,
   (gz_extension_unconditional "data.gz" [31, 139, 8, 0, 0, 0, 0, 0, 0, 0]
     (by decide)).1 (by decide),
   (gz_extension_unconditional "data.gz" [104, 105] (by decide)).2 (by decide)⟩

/-- C9: whenever construction succeeds, the final stream is a buffered
reader in every configuration, at most one decompression layer is
attached, a compressed reader has its decompressor wrapped in a fresh
buffering layer, and an uncompressed reader uses the buffered raw
source directly. -/
theorem underlying_always_buffered (name : String) (content : List Nat)
    (s : GoStream) (comp : Bool)
    (h : newReaderLayers name content = some (s, comp)) :
    (∃ t, s = GoStream.buffered t) ∧
    s.gzipCount ≤ 1 ∧
    (comp = true → ∃ t, s = GoStream.buffered (GoStream.gzipLayer t)) ∧
    (comp = false → s = GoStream.buffered (GoStream.raw content)) := by
  unfold newReaderLayers at h
  split_ifs at h <;> simp only [Option.some.injEq, Prod.mk.injEq] at h
  · obtain ⟨hs, hc⟩ := h
    subst hs; subst hc
    exact ⟨⟨_, rfl⟩, by simp [GoStream.gzipCount], fun _ => ⟨_, rfl⟩,
      fun hf => by simp at hf⟩
  · obtain ⟨hs, hc⟩ := h
    subst hs; subst hc
    exact ⟨⟨_, rfl⟩, by simp [GoStream.gzipCount], fun _ => ⟨_, rfl⟩,
      fun hf => by simp at hf⟩
  · obtain ⟨hs, hc⟩ := h
    subst hs; subst hc
    exact ⟨⟨_, rfl⟩, by simp [GoStream.gzipCount], fun hf => by simp at hf,
      fun _ => rfl⟩

/-- Witness for C9 at a plain two-byte file. -/
theorem underlying_always_buffered_witness :
    newReaderLayers "a.txt" [104, 105] =
      some (GoStream.buffered (GoStream.raw [104, 105]), false) ∧
    (GoStream.buffered (GoStream.raw [104, 105])).gzipCount ≤ 1 :=
  ⟨by decide,
   (underlying_always_buffered "a.txt" [104, 105]
     (GoStream.buffered (GoStream.raw [104, 105])) false (by decide)).2.1⟩

/-- Witness for C6 at the advanced sample reader. -/
theorem unreadRune_mutates_on_failure_witness :
    ((advancedReader.UnreadRune).2.Offset = advancedReader.prevOffset ∧
     (advancedReader.UnreadRune).2.LineCount = advancedReader.prevLine) ∧
    advancedReader.ReadRune = ((98, 1, none), (advancedReader.ReadRune).2) ∧
    ((((advancedReader.ReadRune).2.UnreadRune).2.UnreadRune).1 =
       some GoError.invalidUnreadRune ∧
     (((advancedReader.ReadRune).2.UnreadRune).2.UnreadRune).2.Offset = 0 ∧
     (((advancedReader.ReadRune).2.UnreadRune).2.UnreadRune).2.LineCount = 0) :=
  ⟨(unreadRune_mutates_on_failure advancedReader).1, by decide,
   (unreadRune_mutates_on_failure advancedReader).2 98 1
     (advancedReader.ReadRune).2 (by decide)⟩

end Chunk
